import Mathlib

/-!
# dbusnotify: desktop notifications over the session bus

A shallow embedding of `dbusnotify.go` and the properties of the wire call that
`SendNotification` builds.

* Go strings are `String`, `uint32` and `byte` are `Nat` (no arithmetic is done on
  them, they are passed through), `int` is `Int`, `*int` is `Option Int`, slices are
  `List`.
* A Go call either returns or panics: `Run`.  The only panics on the paths embedded
  here come from `dbus.SignatureOf`, which the hint loop reaches through
  `Hint.ToVariant` before anything is sent.
* `Hint.Value` is an `interface{}`: `dbus.Value` has the nil interface, the basic
  types, and a constructor for a value of any other dynamic type, which carries the
  signature the library derives for that type, or none when the type has no D-Bus
  representation.
* `map[string]dbus.Variant` is `HintMap`: the list of its entries, read with `get?` and
  written with `set`, which replaces any entry under the key.
* The bus connection is explicit state: `Conn` records the method calls sent so far and
  carries the outcome the transport gives to each call.
-/

set_option autoImplicit false

namespace dbusnotify

/-- What a call of a Go function with result type `α` does: it returns a result, or
it panics. -/
inductive Run (α : Type) where
  | returns (a : α)
  | panics
deriving DecidableEq, Repr

/-- Sequencing of Go calls: a panic in the first call skips what follows. -/
def Run.bind {α β : Type} (r : Run α) (f : α → Run β) : Run β :=
  match r with
  | .returns a => f a
  | .panics => .panics

/-! ## The bus library, as far as the package uses it -/

namespace dbus

/-- The type `dbus.Signature`: a D-Bus type signature string. -/
structure Signature where
  str : String
deriving DecidableEq, Repr

/-- Go values handed to the library as `interface{}`: the nil interface (the zero
value of `Hint.Value`), values of the basic types, the package's `urgency` (underlying
type `byte`), a non-nil `*int` (shown by the integer it points to), and a value of any
other dynamic type.  The last carries the name of its type, the signature of that type
(none for a type without D-Bus representation, such as a channel or a function) and
its contents as text. -/
inductive Value where
  | nil
  | bool (b : Bool)
  | byte (b : Nat)
  | int16 (i : Int)
  | uint16 (n : Nat)
  | int32 (i : Int)
  | uint32 (n : Nat)
  | int64 (i : Int)
  | uint64 (n : Nat)
  | int (i : Int)
  | uint (n : Nat)
  | float64 (bits : Nat)
  | string (s : String)
  | strings (l : List String)
  | urgency (u : Nat)
  | intPtr (p : Int)
  | other (typeName : String) (sig : Option Signature) (contents : String)
deriving DecidableEq, Repr

/-- The type `dbus.Variant`: a value together with its signature. -/
structure Variant where
  sig : Signature
  value : Value
deriving DecidableEq, Repr

/-- The library function `dbus.SignatureOf` on one value: the D-Bus signature of the
value's dynamic type.  It panics on the nil interface, which has no dynamic type, and
on a type without D-Bus representation; a pointer has the signature of what it points
to. -/
def SignatureOf : Value → Run Signature
  | .nil => .panics
  | .bool _ => .returns ⟨"b"⟩
  | .byte _ => .returns ⟨"y"⟩
  | .int16 _ => .returns ⟨"n"⟩
  | .uint16 _ => .returns ⟨"q"⟩
  | .int32 _ => .returns ⟨"i"⟩
  | .uint32 _ => .returns ⟨"u"⟩
  | .int64 _ => .returns ⟨"x"⟩
  | .uint64 _ => .returns ⟨"t"⟩
  | .int _ => .returns ⟨"i"⟩
  | .uint _ => .returns ⟨"u"⟩
  | .float64 _ => .returns ⟨"d"⟩
  | .string _ => .returns ⟨"s"⟩
  | .strings _ => .returns ⟨"as"⟩
  | .urgency _ => .returns ⟨"y"⟩
  | .intPtr _ => .returns ⟨"i"⟩
  | .other _ (some sig) _ => .returns sig
  | .other _ none _ => .panics

/-- The library function `dbus.MakeVariantWithSignature`: box `v` under the given
signature. -/
def MakeVariantWithSignature (v : Value) (s : Signature) : Variant :=
  { sig := s, value := v }

/-- The library function `dbus.MakeVariant`: box `v` under the signature of its
dynamic type. -/
def MakeVariant (v : Value) : Run Variant :=
  (SignatureOf v).bind fun s => .returns (MakeVariantWithSignature v s)

end dbus

/-- Go `error` values: a leaf error carrying its message, or the result of
`fmt.Errorf` with a `%w` verb, which keeps the wrapped error as its cause. -/
inductive GoError where
  | leaf (msg : String)
  | wrapError (msg : String) (err : GoError)
deriving DecidableEq, Repr

/-- The method `Error()` of an error: its message. -/
def GoError.Error : GoError → String
  | .leaf msg => msg
  | .wrapError msg _ => msg

/-- The method `Unwrap()` of an error: the cause it wraps, if any. -/
def GoError.Unwrap : GoError → Option GoError
  | .leaf _ => none
  | .wrapError _ err => some err

/-- The call `fmt.Errorf(text + "%w", err)`: the message is `text` followed by the
message of `err`, and `err` is the cause. -/
def Errorf (text : String) (err : GoError) : GoError :=
  .wrapError (text ++ err.Error) err

/-! ## Go maps from string to variant -/

/-- Go `map[string]dbus.Variant`, as the list of its entries. -/
structure HintMap where
  entries : List (String × dbus.Variant)
deriving DecidableEq, Repr

/-- The empty map literal `map[string]dbus.Variant{}`. -/
def HintMap.empty : HintMap := ⟨[]⟩

/-- Map read `m[k]` with the presence flag: the value stored under `k`, if any. -/
def HintMap.get? (m : HintMap) (k : String) : Option dbus.Variant :=
  m.entries.lookup k

/-- Map write `m[k] = v`: any entry under `k` is replaced. -/
def HintMap.set (m : HintMap) (k : String) (v : dbus.Variant) : HintMap :=
  ⟨(k, v) :: m.entries.filter (fun e => e.1 != k)⟩

/-- The keys present in the map. -/
def HintMap.keys (m : HintMap) : List String :=
  m.entries.map Prod.fst

/-! ## The data model (dbusnotify.go, lines 9-63) -/

/-- Constant `objectPath` (line 10). -/
def objectPath : String := "/org/freedesktop/Notifications"

/-- Constant `dest` (line 11). -/
def dest : String := "org.freedesktop.Notifications"

/-- Constant `methodNotify` (line 13). -/
def methodNotify : String := "org.freedesktop.Notifications.Notify"

/-- Type `Action` (lines 24-27). -/
structure Action where
  Label : String
  Value : String
deriving DecidableEq, Repr

/-- Method `Action.String` (lines 29-31): `fmt.Sprintf("%s,%s", a.Label, a.Value)`. -/
def Action.String (a : Action) : String :=
  a.Label ++ "," ++ a.Value

/-- Type `Hint` (lines 33-36); `Value` is what the `interface{}` holds. -/
structure Hint where
  Name : String
  Value : dbus.Value
deriving DecidableEq, Repr

/-- Method `Hint.ToVariant` (lines 38-40): the argument `dbus.SignatureOf(h.Value)` is
evaluated first and may panic. -/
def Hint.ToVariant (h : Hint) : Run dbus.Variant :=
  (dbus.SignatureOf h.Value).bind fun s =>
    .returns (dbus.MakeVariantWithSignature h.Value s)

/-- Type `urgency` (line 42), a `byte`. -/
abbrev urgency := Nat

/-- Variable `UrgencyLow` (line 45), at its declared value; nothing in the package
assigns to the three urgency variables. -/
def UrgencyLow : urgency := 0

/-- Variable `UrgencyMedium` (line 46), at its declared value. -/
def UrgencyMedium : urgency := 1

/-- Variable `UrgencyHigh` (line 47), at its declared value. -/
def UrgencyHigh : urgency := 2

/-- Type `Notification` (lines 50-63).  The field defaults are the Go zero values, so a
structure instance that leaves fields out reads like the Go composite literal. -/
structure Notification where
  AppName : String := ""
  ReplacesID : Nat := 0
  AppIcon : String := ""
  Summary : String := ""
  Body : String := ""
  Progress : Option Int := none
  Urgency : urgency := 0
  Actions : List Action := []
  Hints : List Hint := []
  Sticky : Bool := false
deriving DecidableEq, Repr

/-! ## The connection -/

/-- One positional argument of a method call, by its Go type. -/
inductive Arg where
  | string (s : String)
  | uint32 (n : Nat)
  | strings (l : List String)
  | variants (m : HintMap)
  | int (i : Int)
deriving DecidableEq, Repr

/-- Type `dbus.Flags`. -/
abbrev dbus.Flags := Nat

/-- A method call as it is handed to the transport. -/
structure MethodCall where
  dest : String
  path : String
  method : String
  flags : dbus.Flags
  args : List Arg
deriving DecidableEq, Repr

/-- Type `dbus.Conn`: the calls sent so far, and the error (or none) with which the
transport answers a call, given the calls sent before it. -/
structure Conn where
  reply : List MethodCall → MethodCall → Option GoError
  sent : List MethodCall

/-- Type `dbus.BusObject`: a destination and object path on a connection. -/
structure BusObject where
  conn : Conn
  dest : String
  path : String

/-- Type `dbus.Call`, reduced to the field the package reads. -/
structure Call where
  Err : Option GoError

/-- Method `Conn.Object`. -/
def Conn.Object (c : Conn) (dest : String) (path : String) : BusObject :=
  { conn := c, dest := dest, path := path }

/-- Method `BusObject.Call`: send one method call and wait for its outcome.  Returns
the finished call and the connection after it. -/
def BusObject.Call (o : BusObject) (method : String) (flags : dbus.Flags)
    (args : List Arg) : Call × Conn :=
  let m : MethodCall :=
    { dest := o.dest, path := o.path, method := method, flags := flags, args := args }
  ({ Err := o.conn.reply o.conn.sent m }, { o.conn with sent := o.conn.sent ++ [m] })

/-- Type `service` (lines 65-67). -/
structure service where
  bus : Conn

/-! ## SendNotification and the presets (lines 77-147) -/

/-- Lines 78-81 of `SendNotification`: the local `actions`. -/
def SendNotification.actions (n : Notification) : List String :=
  let actions : List String := []
  n.Actions.foldl (fun actions a => actions ++ [a.Label, a.Value]) actions

/-- Lines 84-86 of `SendNotification`: the loop over the hints, from the map built
so far.  A panic of `ToVariant` ends the loop. -/
def SendNotification.hintLoop : List Hint → HintMap → Run HintMap
  | [], hints => .returns hints
  | h :: rest, hints =>
    h.ToVariant.bind fun v => SendNotification.hintLoop rest (hints.set h.Name v)

/-- Lines 83-91 of `SendNotification`: the local `hints`. -/
def SendNotification.hints (n : Notification) : Run HintMap :=
  let hints := HintMap.empty
  (SendNotification.hintLoop n.Hints hints).bind fun hints =>
  (match n.Progress with
    | some p => (dbus.MakeVariant (.intPtr p)).bind fun v => .returns (hints.set "value" v)
    | none => .returns hints).bind fun hints =>
  (dbus.MakeVariant (.urgency n.Urgency)).bind fun v =>
  .returns (hints.set "urgency" v)

/-- Lines 93-96 of `SendNotification`: the local `sticky`. -/
def SendNotification.sticky (n : Notification) : Int :=
  let sticky : Int := -1
  if n.Sticky == true then 0 else sticky

/-- Method `service.SendNotification` (lines 77-118).  Gives what the call does (it
returns an error or none, or it panics) and the service afterwards.  A panic happens
while the hints are built, before anything is sent. -/
def SendNotification (s : service) (n : Notification) : Run (Option GoError) × service :=
  let actions := SendNotification.actions n
  match SendNotification.hints n with
  | .panics => (.panics, s)
  | .returns hints =>
    let sticky := SendNotification.sticky n
    let obj := s.bus.Object dest objectPath
    let flags : dbus.Flags := 0
    let r := obj.Call methodNotify flags
      [.string n.AppName, .uint32 n.ReplacesID, .string n.AppIcon, .string n.Summary,
       .string n.Body, .strings actions, .variants hints, .int sticky]
    match r.1.Err with
    | some err =>
      (.returns (some (Errorf "dbusnotify: could not send message: " err)), { bus := r.2 })
    | none => (.returns none, { bus := r.2 })

/-- Method `service.SendError` (lines 120-128). -/
def SendError (s : service) (program subject body : String) :
    Run (Option GoError) × service :=
  SendNotification s
    { AppName := program, Summary := subject, Body := body, Urgency := UrgencyHigh,
      Sticky := true }

/-- Method `service.SendWarning` (lines 130-138). -/
def SendWarning (s : service) (program subject body : String) :
    Run (Option GoError) × service :=
  SendNotification s
    { AppName := program, Summary := subject, Body := body, Urgency := UrgencyMedium,
      Sticky := false }

/-- Method `service.SendInfo` (lines 140-147). -/
def SendInfo (s : service) (program subject body : String) :
    Run (Option GoError) × service :=
  SendNotification s
    { AppName := program, Summary := subject, Body := body, Sticky := false }

/-! ## Specification-side definitions and example inputs -/

/-- Specification of the action loop: each action as its label followed by its value,
actions in order. -/
def labelValuePairs : List Action → List String
  | [] => []
  | a :: rest => a.Label :: a.Value :: labelValuePairs rest

/-- The method call of lines 98-111, for a notification and the hint mapping built
for it. -/
def notifyCall (n : Notification) (hints : HintMap) : MethodCall :=
  { dest := dest, path := objectPath, method := methodNotify, flags := 0,
    args := [.string n.AppName, .uint32 n.ReplacesID, .string n.AppIcon, .string n.Summary,
             .string n.Body, .strings (SendNotification.actions n), .variants hints,
             .int (SendNotification.sticky n)] }

/-- A notification whose hints name both injected keys and repeat a key. -/
def sampleNotification : Notification :=
  { AppName := "backup", ReplacesID := 7, AppIcon := "drive", Summary := "Backup",
    Body := "42 percent done", Progress := some 42, Urgency := UrgencyMedium,
    Actions := [⟨"Open", "open"⟩, ⟨"Cancel", "cancel"⟩],
    Hints := [⟨"value", .int 5⟩, ⟨"category", .string "transfer"⟩, ⟨"urgency", .byte 2⟩,
              ⟨"category", .string "device"⟩],
    Sticky := true }

/-- A notification without progress whose hints carry a key named value. -/
def hintedValueNotification : Notification :=
  { AppName := "backup", Summary := "Backup", Hints := [⟨"value", .int 50⟩] }

/-- A connection on which nothing was sent yet and which refuses every call. -/
def refusingConn : Conn :=
  { reply := fun _ _ => some (.leaf "org.freedesktop.DBus.Error.ServiceUnknown"),
    sent := [] }

/-- A connection on which nothing was sent yet and which accepts every call. -/
def acceptingConn : Conn :=
  { reply := fun _ _ => none, sent := [] }

/-! ## Lemmas on maps -/

theorem lookup_filter_ne (l : List (String × dbus.Variant)) (k k' : String) (h : k' ≠ k) :
    (l.filter (fun e => e.1 != k)).lookup k' = l.lookup k' := by
  induction l with
  | nil => rfl
  | cons e t ih =>
    obtain ⟨a, b⟩ := e
    by_cases hak : a = k
    · subst hak
      have : (k' == a) = false := by simpa using h
      simp [List.filter_cons, List.lookup_cons, ih, this]
    · by_cases hk : k' = a
      · subst hk
        simp [List.filter_cons, List.lookup_cons, hak]
      · have : (k' == a) = false := by simpa using hk
        simp [List.filter_cons, List.lookup_cons, hak, ih, this]

theorem HintMap.get?_empty (k : String) : HintMap.empty.get? k = none := rfl

theorem HintMap.get?_set (m : HintMap) (k k' : String) (v : dbus.Variant) :
    (m.set k v).get? k' = if k' = k then some v else m.get? k' := by
  unfold HintMap.get? HintMap.set
  by_cases h : k' = k
  · subst h; simp [List.lookup_cons]
  · have : (k' == k) = false := by simpa using h
    simp [List.lookup_cons, this, h, lookup_filter_ne _ _ _ h]

theorem lookup_isSome_iff (l : List (String × dbus.Variant)) (k : String) :
    (l.lookup k).isSome ↔ k ∈ l.map Prod.fst := by
  induction l with
  | nil => simp
  | cons e t ih =>
    obtain ⟨a, b⟩ := e
    by_cases h : k = a
    · subst h; simp [List.lookup_cons]
    · have : (k == a) = false := by simpa using h
      simp [List.lookup_cons, this, h, ih]

theorem HintMap.mem_keys (m : HintMap) (k : String) :
    k ∈ m.keys ↔ (m.get? k).isSome := by
  unfold HintMap.keys HintMap.get?
  exact (lookup_isSome_iff m.entries k).symm

/-! ## Lemmas on the hint loop -/

theorem hintLoop_returns (hs : List Hint) (m : HintMap)
    (hbox : ∀ h ∈ hs, dbus.SignatureOf h.Value ≠ .panics) :
    ∃ m', SendNotification.hintLoop hs m = .returns m' := by
  induction hs generalizing m with
  | nil => exact ⟨m, rfl⟩
  | cons h t ih =>
    cases hs : dbus.SignatureOf h.Value with
    | panics => exact absurd hs (hbox h (List.mem_cons_self _ _))
    | returns s =>
      obtain ⟨m', hm'⟩ := ih (m.set h.Name (dbus.MakeVariantWithSignature h.Value s))
        (fun x hx => hbox x (List.mem_cons_of_mem _ hx))
      exact ⟨m', by simp [SendNotification.hintLoop, Hint.ToVariant, hs, Run.bind, hm']⟩

theorem hintLoop_cons_returns (h : Hint) (t : List Hint) (m m' : HintMap)
    (hm : SendNotification.hintLoop (h :: t) m = .returns m') :
    ∃ s, dbus.SignatureOf h.Value = .returns s ∧
      SendNotification.hintLoop t (m.set h.Name { sig := s, value := h.Value })
        = .returns m' := by
  cases hs : dbus.SignatureOf h.Value with
  | panics => simp [SendNotification.hintLoop, Hint.ToVariant, hs, Run.bind] at hm
  | returns s =>
    refine ⟨s, rfl, ?_⟩
    simpa [SendNotification.hintLoop, Hint.ToVariant, hs, Run.bind,
      dbus.MakeVariantWithSignature] using hm

theorem get?_hintLoop_of_not_named (k : String) (hs : List Hint) (m m' : HintMap)
    (hm : SendNotification.hintLoop hs m = .returns m') (hno : ∀ h ∈ hs, h.Name ≠ k) :
    m'.get? k = m.get? k := by
  induction hs generalizing m with
  | nil => cases hm; rfl
  | cons h t ih =>
    obtain ⟨s, _, ht⟩ := hintLoop_cons_returns h t m m' hm
    have hk : k ≠ h.Name := fun e => hno h (List.mem_cons_self _ _) e.symm
    rw [ih _ ht (fun x hx => hno x (List.mem_cons_of_mem _ hx)), HintMap.get?_set,
      if_neg hk]

theorem get?_hintLoop_last (k : String) (pre post : List Hint) (h : Hint)
    (m m' : HintMap)
    (hm : SendNotification.hintLoop (pre ++ h :: post) m = .returns m')
    (hk : h.Name = k) (hno : ∀ x ∈ post, x.Name ≠ k) :
    ∃ s, dbus.SignatureOf h.Value = .returns s ∧
      m'.get? k = some { sig := s, value := h.Value } := by
  induction pre generalizing m with
  | nil =>
    obtain ⟨s, hs, ht⟩ := hintLoop_cons_returns h post m m' hm
    refine ⟨s, hs, ?_⟩
    rw [get?_hintLoop_of_not_named k post _ m' ht hno, HintMap.get?_set, if_pos hk.symm]
  | cons x t ih =>
    obtain ⟨_, _, ht⟩ := hintLoop_cons_returns x (t ++ h :: post) m m' hm
    exact ih _ ht

theorem isSome_get?_hintLoop (k : String) (hs : List Hint) (m m' : HintMap)
    (hm : SendNotification.hintLoop hs m = .returns m') :
    (m'.get? k).isSome ↔ (∃ h ∈ hs, h.Name = k) ∨ (m.get? k).isSome := by
  induction hs generalizing m with
  | nil => cases hm; simp
  | cons h t ih =>
    obtain ⟨s, _, ht⟩ := hintLoop_cons_returns h t m m' hm
    rw [ih _ ht, HintMap.get?_set]
    by_cases hk : k = h.Name
    · subst hk; simp
    · have hk2 : ¬ h.Name = k := fun e => hk e.symm
      simp [hk, hk2]

/-- When every hint value has a signature, the hint mapping is built: it is the map
left by the hint loop, then `value` written when there is progress, then `urgency`. -/
theorem hints_returns (n : Notification)
    (hbox : ∀ h ∈ n.Hints, dbus.SignatureOf h.Value ≠ .panics) :
    ∃ m, SendNotification.hintLoop n.Hints HintMap.empty = .returns m ∧
      SendNotification.hints n = .returns
        ((match n.Progress with
          | some p => m.set "value" { sig := ⟨"i"⟩, value := .intPtr p }
          | none => m).set "urgency" { sig := ⟨"y"⟩, value := .urgency n.Urgency }) := by
  obtain ⟨m, hm⟩ := hintLoop_returns n.Hints HintMap.empty hbox
  refine ⟨m, hm, ?_⟩
  unfold SendNotification.hints
  cases n.Progress <;>
    simp [hm, Run.bind, dbus.MakeVariant, dbus.SignatureOf, dbus.MakeVariantWithSignature]

/-- The keys of a hint mapping that was built, key by key. -/
theorem mem_keys_hints (n : Notification) (hints : HintMap)
    (hh : SendNotification.hints n = .returns hints)
    (hbox : ∀ h ∈ n.Hints, dbus.SignatureOf h.Value ≠ .panics) (k : String) :
    k ∈ hints.keys ↔
      (∃ h ∈ n.Hints, h.Name = k) ∨ k = "urgency" ∨ (k = "value" ∧ n.Progress ≠ none) := by
  obtain ⟨m, hm, hr⟩ := hints_returns n hbox
  rw [hr] at hh
  cases hh
  rw [HintMap.mem_keys, HintMap.get?_set]
  by_cases hu : k = "urgency"
  · simp [hu]
  · cases hp : n.Progress with
    | none =>
      simp only [hu, if_false, isSome_get?_hintLoop k _ _ _ hm, HintMap.get?_empty]
      simp
    | some p =>
      simp only [hu, if_false, HintMap.get?_set]
      by_cases hv : k = "value"
      · simp [hv]
      · simp only [hv, if_false, isSome_get?_hintLoop k _ _ _ hm, HintMap.get?_empty]
        simp

/-- Once the hint mapping is built, `SendNotification` sends the one call and returns
what the call reported, wrapped when it is an error. -/
theorem SendNotification_of_hints (s : service) (n : Notification) (hints : HintMap)
    (hr : SendNotification.hints n = .returns hints) :
    SendNotification s n =
      (.returns ((s.bus.reply s.bus.sent (notifyCall n hints)).map
          (Errorf "dbusnotify: could not send message: ")),
       { bus := { reply := s.bus.reply, sent := s.bus.sent ++ [notifyCall n hints] } }) := by
  simp only [SendNotification, hr, BusObject.Call, Conn.Object, notifyCall]
  split <;> simp [*]

/-! ## Lemmas on the action loop -/

theorem foldl_actions (as : List Action) (init : List String) :
    as.foldl (fun actions a => actions ++ [a.Label, a.Value]) init
      = init ++ labelValuePairs as := by
  induction as generalizing init with
  | nil => simp [labelValuePairs]
  | cons a t ih => simp [List.foldl_cons, ih, labelValuePairs]

theorem actions_eq (n : Notification) :
    SendNotification.actions n = labelValuePairs n.Actions := by
  simp [SendNotification.actions, foldl_actions]

theorem length_labelValuePairs (as : List Action) :
    (labelValuePairs as).length = 2 * as.length := by
  induction as with
  | nil => rfl
  | cons a t ih => simp [labelValuePairs, ih]; omega

theorem labelValuePairs_even (as : List Action) (i : Nat) :
    (labelValuePairs as)[2 * i]? = (as[i]?).map Action.Label := by
  induction as generalizing i with
  | nil => simp [labelValuePairs]
  | cons a t ih =>
    cases i with
    | zero => simp [labelValuePairs]
    | succ j =>
      have : 2 * (j + 1) = 2 * j + 1 + 1 := by omega
      simp [labelValuePairs, this, ih]

theorem labelValuePairs_odd (as : List Action) (i : Nat) :
    (labelValuePairs as)[2 * i + 1]? = (as[i]?).map Action.Value := by
  induction as generalizing i with
  | nil => simp [labelValuePairs]
  | cons a t ih =>
    cases i with
    | zero => simp [labelValuePairs]
    | succ j =>
      have : 2 * (j + 1) + 1 = (2 * j + 1) + 1 + 1 := by omega
      simp [labelValuePairs, this, ih]

/-! ## The claims -/

/-- Counterexample to C1 as stated: a hint whose value is the nil interface makes
`SendNotification` panic while it builds the hints, and no call is sent. -/
theorem nil_hint_sends_no_call :
    (SendNotification { bus := acceptingConn }
        { AppName := "backup", Hints := [{ Name := "x", Value := .nil }] }).1 = .panics ∧
    (SendNotification { bus := acceptingConn }
        { AppName := "backup", Hints := [{ Name := "x", Value := .nil }] }).2.bus.sent
      = acceptingConn.sent := by
  decide

/-- C1, amended: for every notification whose hint values all have a D-Bus signature,
`SendNotification` returns, the hint mapping is built, and exactly one method call is
appended to the calls sent on the connection: method
`org.freedesktop.Notifications.Notify` on object path `/org/freedesktop/Notifications`
at destination `org.freedesktop.Notifications` with flags 0, whose eight arguments
are, in order, AppName, ReplacesID, AppIcon, Summary, Body (each unchanged), the
flattened actions, the hint mapping and the sticky wire value. -/
theorem SendNotification_sends_one_Notify_call (s : service) (n : Notification)
    (hbox : ∀ h ∈ n.Hints, dbus.SignatureOf h.Value ≠ .panics) :
    ∃ hints, SendNotification.hints n = .returns hints ∧
      (∃ r, (SendNotification s n).1 = .returns r) ∧
      (SendNotification s n).2.bus.sent = s.bus.sent ++
        [{ dest := "org.freedesktop.Notifications",
           path := "/org/freedesktop/Notifications",
           method := "org.freedesktop.Notifications.Notify",
           flags := 0,
           args := [Arg.string n.AppName, Arg.uint32 n.ReplacesID, Arg.string n.AppIcon,
                    Arg.string n.Summary, Arg.string n.Body,
                    Arg.strings (SendNotification.actions n),
                    Arg.variants hints,
                    Arg.int (SendNotification.sticky n)] }] := by
  obtain ⟨m, _, hr⟩ := hints_returns n hbox
  refine ⟨_, hr, ?_⟩
  simp only [SendNotification, hr]
  split
  · exact ⟨⟨_, rfl⟩, rfl⟩
  · exact ⟨⟨_, rfl⟩, rfl⟩

/-- Witness of the amended C1: the one call sent for the sample notification. -/
theorem SendNotification_sends_one_Notify_call_witness :
    (∀ h ∈ sampleNotification.Hints, dbus.SignatureOf h.Value ≠ .panics) ∧
    ∃ hints, SendNotification.hints sampleNotification = .returns hints ∧
      (∃ r, (SendNotification { bus := acceptingConn } sampleNotification).1 = .returns r) ∧
      (SendNotification { bus := acceptingConn } sampleNotification).2.bus.sent =
        acceptingConn.sent ++
        [{ dest := "org.freedesktop.Notifications",
           path := "/org/freedesktop/Notifications",
           method := "org.freedesktop.Notifications.Notify",
           flags := 0,
           args := [Arg.string "backup", Arg.uint32 7, Arg.string "drive",
                    Arg.string "Backup", Arg.string "42 percent done",
                    Arg.strings (SendNotification.actions sampleNotification),
                    Arg.variants hints,
                    Arg.int (SendNotification.sticky sampleNotification)] }] :=
  ⟨by decide,
    SendNotification_sends_one_Notify_call { bus := acceptingConn } sampleNotification
      (by decide)⟩

/-- Counterexample to C2 as stated: with a supplied hint named `urgency` whose value
is the nil interface, building the hints panics and no mapping holds the urgency. -/
theorem nil_urgency_hint_builds_no_mapping :
    SendNotification.hints
      { Urgency := UrgencyHigh, Hints := [{ Name := "urgency", Value := .nil }] }
      = .panics := by
  decide

/-- C2, amended: for every notification whose hint values all have a D-Bus signature,
whatever its hints and progress, the hint mapping is built and has key `urgency`, and
the value stored there is `n.Urgency`, boxed under its signature. -/
theorem hints_urgency_is_notification_urgency (n : Notification)
    (hbox : ∀ h ∈ n.Hints, dbus.SignatureOf h.Value ≠ .panics) :
    ∃ hints, SendNotification.hints n = .returns hints ∧
      "urgency" ∈ hints.keys ∧
      ∃ s, dbus.SignatureOf (.urgency n.Urgency) = .returns s ∧
        hints.get? "urgency" = some { sig := s, value := .urgency n.Urgency } := by
  obtain ⟨m, _, hr⟩ := hints_returns n hbox
  refine ⟨_, hr, ?_⟩
  have hget : ((match n.Progress with
      | some p => m.set "value" { sig := ⟨"i"⟩, value := .intPtr p }
      | none => m).set "urgency" { sig := ⟨"y"⟩, value := .urgency n.Urgency }).get? "urgency"
      = some { sig := ⟨"y"⟩, value := .urgency n.Urgency } := by
    rw [HintMap.get?_set, if_pos rfl]
  exact ⟨by rw [HintMap.mem_keys, hget]; rfl, ⟨"y"⟩, rfl, hget⟩

/-- Witness of the amended C2: the supplied hint `urgency` = 2 is replaced by the
urgency 1 of the notification. -/
theorem hints_urgency_is_notification_urgency_witness :
    (∀ h ∈ sampleNotification.Hints, dbus.SignatureOf h.Value ≠ .panics) ∧
    ∃ hints, SendNotification.hints sampleNotification = .returns hints ∧
      "urgency" ∈ hints.keys ∧
      ∃ s, dbus.SignatureOf (.urgency 1) = .returns s ∧
        hints.get? "urgency" = some { sig := s, value := .urgency 1 } :=
  ⟨by decide, hints_urgency_is_notification_urgency sampleNotification (by decide)⟩

/-- Counterexample to C3 as stated: with progress 42 and a supplied hint named `value`
that holds a channel, building the hints panics and no mapping holds the progress. -/
theorem channel_value_hint_builds_no_mapping :
    SendNotification.hints
      { Progress := some 42,
        Hints := [{ Name := "value", Value := .other "chan int" none "0xc000012345" }] }
      = .panics := by
  decide

/-- C3, amended: for every notification whose hint values all have a D-Bus signature,
when `Progress` points to `p` the hint mapping is built and has key `value`, and the
value stored there is the progress pointer, boxed under its signature, also when hints
named `value` were supplied. -/
theorem hints_value_is_progress (n : Notification) (p : Int)
    (hbox : ∀ h ∈ n.Hints, dbus.SignatureOf h.Value ≠ .panics)
    (hp : n.Progress = some p) :
    ∃ hints, SendNotification.hints n = .returns hints ∧
      "value" ∈ hints.keys ∧
      ∃ s, dbus.SignatureOf (.intPtr p) = .returns s ∧
        hints.get? "value" = some { sig := s, value := .intPtr p } := by
  obtain ⟨m, _, hr⟩ := hints_returns n hbox
  refine ⟨_, hr, ?_⟩
  have hget : ((match n.Progress with
      | some p => m.set "value" { sig := ⟨"i"⟩, value := .intPtr p }
      | none => m).set "urgency" { sig := ⟨"y"⟩, value := .urgency n.Urgency }).get? "value"
      = some { sig := ⟨"i"⟩, value := .intPtr p } := by
    rw [hp, HintMap.get?_set, if_neg (by decide), HintMap.get?_set, if_pos rfl]
  exact ⟨by rw [HintMap.mem_keys, hget]; rfl, ⟨"i"⟩, rfl, hget⟩

/-- Witness of the amended C3: progress 42 replaces the supplied hint `value` = 5. -/
theorem hints_value_is_progress_witness :
    (∀ h ∈ sampleNotification.Hints, dbus.SignatureOf h.Value ≠ .panics) ∧
    sampleNotification.Progress = some 42 ∧
    ∃ hints, SendNotification.hints sampleNotification = .returns hints ∧
      "value" ∈ hints.keys ∧
      ∃ s, dbus.SignatureOf (.intPtr 42) = .returns s ∧
        hints.get? "value" = some { sig := s, value := .intPtr 42 } :=
  ⟨by decide, rfl, hints_value_is_progress sampleNotification 42 (by decide) rfl⟩

/-- Counterexample to C4 as stated: with `Progress` null and a supplied hint named
`value`, the hint mapping is built and does contain key `value`. -/
theorem hints_value_present_without_progress :
    hintedValueNotification.Progress = none ∧
    ∃ hints, SendNotification.hints hintedValueNotification = .returns hints ∧
      "value" ∈ hints.keys ∧
      hints.get? "value" = some { sig := ⟨"i"⟩, value := .int 50 } :=
  ⟨rfl, _, rfl, by decide, by decide⟩

/-- C4, amended: for every notification whose hint values all have a D-Bus signature,
the hint mapping is built, and it contains key `value` if and only if `Progress` is
non-null or some supplied hint is named `value`. -/
theorem hints_value_key_iff (n : Notification)
    (hbox : ∀ h ∈ n.Hints, dbus.SignatureOf h.Value ≠ .panics) :
    ∃ hints, SendNotification.hints n = .returns hints ∧
      ("value" ∈ hints.keys ↔ (n.Progress ≠ none ∨ ∃ h ∈ n.Hints, h.Name = "value")) := by
  obtain ⟨m, _, hr⟩ := hints_returns n hbox
  refine ⟨_, hr, ?_⟩
  rw [mem_keys_hints n _ hr hbox]
  constructor
  · rintro (h | h | h)
    · exact Or.inr h
    · exact absurd h (by decide)
    · exact Or.inl h.2
  · rintro (h | h)
    · exact Or.inr (Or.inr ⟨rfl, h⟩)
    · exact Or.inl h

/-- Witness of the amended C4: without progress and without a hint named `value`, the
mapping that is built has no key `value`. -/
theorem hints_value_key_iff_witness :
    (∀ h ∈ ([{ Name := "category", Value := .string "device" }] : List Hint),
        dbus.SignatureOf h.Value ≠ .panics) ∧
    ∃ hints,
      SendNotification.hints { Hints := [{ Name := "category", Value := .string "device" }] }
        = .returns hints ∧
      "value" ∉ hints.keys := by
  refine ⟨by decide, ?_⟩
  obtain ⟨hints, hr, hiff⟩ :=
    hints_value_key_iff { Hints := [{ Name := "category", Value := .string "device" }] }
      (by decide)
  exact ⟨hints, hr, fun hmem => by simpa using hiff.mp hmem⟩

/-- C5: the expire-timeout argument is 0 when `Sticky` is true and -1 when it is
false, and it is never anything else. -/
theorem sticky_wire_value (n : Notification) :
    (n.Sticky = true → SendNotification.sticky n = 0) ∧
    (n.Sticky = false → SendNotification.sticky n = -1) ∧
    (SendNotification.sticky n = 0 ∨ SendNotification.sticky n = -1) := by
  unfold SendNotification.sticky
  cases n.Sticky <;> simp

/-- C6: the flattened actions have length twice the number of actions; index `2i`
holds the label of action `i` and index `2i+1` its value. -/
theorem actions_flattened (n : Notification) :
    (SendNotification.actions n).length = 2 * n.Actions.length ∧
    ∀ (i : Nat) (hi : i < n.Actions.length),
      (SendNotification.actions n)[2 * i]? = some (n.Actions[i]).Label ∧
      (SendNotification.actions n)[2 * i + 1]? = some (n.Actions[i]).Value := by
  rw [actions_eq]
  refine ⟨length_labelValuePairs _, fun i hi => ?_⟩
  rw [labelValuePairs_even, labelValuePairs_odd, List.getElem?_eq_getElem hi]
  exact ⟨rfl, rfl⟩

/-- Witness of C6 on two actions and on none. -/
theorem actions_flattened_witness :
    SendNotification.actions sampleNotification = ["Open", "open", "Cancel", "cancel"] ∧
    (SendNotification.actions sampleNotification)[2 * 1]? = some "Cancel" ∧
    (SendNotification.actions sampleNotification)[2 * 1 + 1]? = some "cancel" ∧
    (SendNotification.actions hintedValueNotification).length = 2 * 0 :=
  ⟨by decide, ((actions_flattened sampleNotification).2 1 (by decide)).1,
    ((actions_flattened sampleNotification).2 1 (by decide)).2,
    (actions_flattened hintedValueNotification).1⟩

/-- C7: each preset is `SendNotification` on a fixed notification, result passed on
unchanged: `SendInfo` with urgency low (0) and not sticky, `SendWarning` with urgency
medium (1) and not sticky, `SendError` with urgency high (2) and sticky; all other
fields are zero values. -/
theorem presets_delegate (s : service) (appName subject body : String) :
    (UrgencyLow = 0 ∧ UrgencyMedium = 1 ∧ UrgencyHigh = 2) ∧
    SendInfo s appName subject body =
      SendNotification s
        { AppName := appName, ReplacesID := 0, AppIcon := "", Summary := subject,
          Body := body, Progress := none, Urgency := UrgencyLow, Actions := [],
          Hints := [], Sticky := false } ∧
    SendWarning s appName subject body =
      SendNotification s
        { AppName := appName, ReplacesID := 0, AppIcon := "", Summary := subject,
          Body := body, Progress := none, Urgency := UrgencyMedium, Actions := [],
          Hints := [], Sticky := false } ∧
    SendError s appName subject body =
      SendNotification s
        { AppName := appName, ReplacesID := 0, AppIcon := "", Summary := subject,
          Body := body, Progress := none, Urgency := UrgencyHigh, Actions := [],
          Hints := [], Sticky := true } :=
  ⟨⟨rfl, rfl, rfl⟩, rfl, rfl, rfl⟩

/-- Counterexample to C8 as stated: with a hint that holds a channel,
`SendNotification` panics: it returns neither an error nor none, and it attempts no
call. -/
theorem channel_hint_returns_nothing :
    (SendNotification { bus := refusingConn }
        { Summary := "Backup",
          Hints := [{ Name := "done", Value := .other "chan bool" none "0xc000067890" }] }).1
      = .panics ∧
    (SendNotification { bus := refusingConn }
        { Summary := "Backup",
          Hints := [{ Name := "done", Value := .other "chan bool" none "0xc000067890" }] }
      ).2.bus.sent = refusingConn.sent := by
  decide

/-- C8, amended: for every notification whose hint values all have a D-Bus signature,
`SendNotification` sends one call and returns; it returns an error exactly when that
call reported one; the returned error is `fmt.Errorf` of the reported error and
unwraps to it; when the call reports none, none is returned. -/
theorem SendNotification_returns_the_call_error (s : service) (n : Notification)
    (hbox : ∀ h ∈ n.Hints, dbus.SignatureOf h.Value ≠ .panics) :
    ∃ (call : MethodCall) (r : Option GoError),
      (SendNotification s n).2.bus.sent = s.bus.sent ++ [call] ∧
      (SendNotification s n).1 = .returns r ∧
      (r.isSome ↔ (s.bus.reply s.bus.sent call).isSome) ∧
      (∀ err, s.bus.reply s.bus.sent call = some err →
        r = some (Errorf "dbusnotify: could not send message: " err) ∧
        r.bind GoError.Unwrap = some err) ∧
      (s.bus.reply s.bus.sent call = none → r = none) := by
  obtain ⟨hints, hr⟩ : ∃ hints, SendNotification.hints n = .returns hints := by
    obtain ⟨m, _, hm⟩ := hints_returns n hbox
    exact ⟨_, hm⟩
  refine ⟨notifyCall n hints, (s.bus.reply s.bus.sent (notifyCall n hints)).map
    (Errorf "dbusnotify: could not send message: "), ?_, ?_, ?_, ?_, ?_⟩
  · rw [SendNotification_of_hints s n hints hr]
  · rw [SendNotification_of_hints s n hints hr]
  · simp
  · intro err he
    rw [he]
    exact ⟨rfl, rfl⟩
  · intro he
    rw [he]
    rfl

/-- Witness of the amended C8: on a connection that refuses the call, the refusal
comes back wrapped. -/
theorem SendNotification_returns_the_call_error_witness :
    (∀ h ∈ sampleNotification.Hints, dbus.SignatureOf h.Value ≠ .panics) ∧
    (SendNotification { bus := refusingConn } sampleNotification).1 =
      .returns (some (.wrapError
        "dbusnotify: could not send message: org.freedesktop.DBus.Error.ServiceUnknown"
        (.leaf "org.freedesktop.DBus.Error.ServiceUnknown"))) := by
  refine ⟨by decide, ?_⟩
  obtain ⟨call, r, _, hret, _, herr, _⟩ :=
    SendNotification_returns_the_call_error { bus := refusingConn } sampleNotification
      (by decide)
  rw [hret, (herr _ rfl).1]
  rfl

/-- Counterexample to C10 as stated: a hint named `category` is supplied, but its value
is the nil interface, so building the hints panics and no mapping contains the key. -/
theorem nil_category_hint_builds_no_mapping :
    (∃ h ∈ ([{ Name := "category", Value := .nil }] : List Hint), h.Name = "category") ∧
    SendNotification.hints { Hints := [{ Name := "category", Value := .nil }] }
      = .panics := by
  decide

/-- C10, amended: for every notification whose hint values all have a D-Bus signature
the hint mapping is built; for a key `k` other than `urgency` and `value` it contains
`k` exactly when some supplied hint is named `k`, and the value stored is the `Value`
of the last such hint, boxed under its signature; the keys of the mapping are the hint
names, `urgency`, and `value` when `Progress` is non-null. -/
theorem hints_other_keys (n : Notification) (k : String)
    (hbox : ∀ h ∈ n.Hints, dbus.SignatureOf h.Value ≠ .panics)
    (hu : k ≠ "urgency") (hv : k ≠ "value") :
    ∃ hints, SendNotification.hints n = .returns hints ∧
      (k ∈ hints.keys ↔ ∃ h ∈ n.Hints, h.Name = k) ∧
      (∀ (pre post : List Hint) (h : Hint), n.Hints = pre ++ h :: post → h.Name = k →
        (∀ x ∈ post, x.Name ≠ k) →
        ∃ s, dbus.SignatureOf h.Value = .returns s ∧
          hints.get? k = some { sig := s, value := h.Value }) ∧
      (∀ key, key ∈ hints.keys ↔
        ((∃ h ∈ n.Hints, h.Name = key) ∨ key = "urgency" ∨
          (key = "value" ∧ n.Progress ≠ none))) := by
  obtain ⟨m, hm, hr⟩ := hints_returns n hbox
  refine ⟨_, hr, ?_, ?_, fun key => mem_keys_hints n _ hr hbox key⟩
  · rw [mem_keys_hints n _ hr hbox]
    simp [hu, hv]
  · intro pre post h hsplit hk hno
    rw [hsplit] at hm
    obtain ⟨s, hs, hget⟩ := get?_hintLoop_last k pre post h _ m hm hk hno
    refine ⟨s, hs, ?_⟩
    rw [HintMap.get?_set, if_neg hu]
    cases n.Progress with
    | none => exact hget
    | some p => simp only [HintMap.get?_set, if_neg hv]; exact hget

/-- Witness of the amended C10: of the two hints named `category` the second one is
stored. -/
theorem hints_other_keys_witness :
    (∀ h ∈ sampleNotification.Hints, dbus.SignatureOf h.Value ≠ .panics) ∧
    "category" ≠ "urgency" ∧ "category" ≠ "value" ∧
    ∃ hints, SendNotification.hints sampleNotification = .returns hints ∧
      hints.get? "category" = some { sig := ⟨"s"⟩, value := .string "device" } := by
  refine ⟨by decide, by decide, by decide, ?_⟩
  obtain ⟨hints, hr, _, hlast, _⟩ :=
    hints_other_keys sampleNotification "category" (by decide) (by decide) (by decide)
  obtain ⟨s, hs, hget⟩ :=
    hlast [⟨"value", .int 5⟩, ⟨"category", .string "transfer"⟩, ⟨"urgency", .byte 2⟩]
      [] ⟨"category", .string "device"⟩ rfl rfl (by simp)
  cases hs
  exact ⟨hints, hr, hget⟩

end dbusnotify
